import Mathlib

/-!
Verification of the statistics / preprocessing library
(`food_statistics.py`, `preprocessing.py`, `preprocessing_lib.py`).

The dataset is a Python dict mapping column names to equal-length lists of
scalar values.  Scalars are modelled by the tagged type `Value`:
numbers (Python ints and floats, modelled exactly as rationals), strings,
and the missing marker `None`.  Python exceptions are modelled by `Except Err`.

Python numeric equality identifies `2` and `2.0`; modelling every number as a
single rational matches that.  Dicts are insertion-ordered association lists
with unique keys.
-/

namespace FoodStats

/-- A scalar value stored in a dataset column: a number, a string, or `None`. -/
inductive Value where
  | num (q : ℚ)
  | str (s : String)
  | null
deriving DecidableEq, Repr

/-- Python exceptions raised by the library: `TypeError`, `KeyError`, `ValueError`. -/
inductive Err where
  | typeError
  | keyError
  | valueError
deriving DecidableEq, Repr

/-- A column: an ordered list of scalar values. -/
abbrev Column := List Value

/-- A dataset: an insertion-ordered mapping from column name to column. -/
abbrev Dataset := List (String × Column)

/-- Dict lookup (first matching key). -/
def dictGet : Dataset → String → Option Column
  | [], _ => none
  | (k, vs) :: rest, c => if k = c then some vs else dictGet rest c

/-- `Statistics._get_column`: return the column, `KeyError` if absent. -/
def get_column (d : Dataset) (c : String) : Except Err Column :=
  match dictGet d c with
  | some vs => .ok vs
  | none => .error .keyError

/-- `isinstance(v, (int, float))`. -/
def Value.isNum : Value → Bool
  | .num _ => true
  | _ => false

/-- Is the value a string? -/
def Value.isStr : Value → Bool
  | .str _ => true
  | _ => false

/-- The numeric content of a value (only used under an all-numeric guard). -/
def Value.toQ : Value → ℚ
  | .num q => q
  | _ => 0

/-- `Statistics._assert_numeric`: `TypeError` if any element is not numeric. -/
def assert_numeric (values : List Value) : Except Err Unit :=
  if values.all Value.isNum then .ok () else .error .typeError

/-- Python `sum(data)` over a numeric column (left fold starting from `0`). -/
def sumQ (values : List Value) : ℚ :=
  values.foldl (fun acc v => acc + v.toQ) 0

/-- `Statistics.mean`: asserts numeric, `0.0` on an empty column, else `sum/len`. -/
def mean (d : Dataset) (c : String) : Except Err ℚ := do
  let data ← get_column d c
  let _ ← assert_numeric data
  if data.length = 0 then pure 0
  else pure (sumQ data / (data.length : ℚ))

/-- Python `list.count`. -/
def countVal (v : Value) : List Value → Nat
  | [] => 0
  | w :: ws => (if w = v then 1 else 0) + countVal v ws

/-- The fold over `zip(data, data[1:])` counting transitions `value2 -> value1`. -/
def transitionCount (v2 v1 : Value) (data : List Value) : Nat :=
  (data.zip data.tail).foldl
    (fun n p => if p.1 = v2 ∧ p.2 = v1 then n + 1 else n) 0

/-- `Statistics.conditional_probability`. -/
def conditional_probability (d : Dataset) (c : String) (v1 v2 : Value) :
    Except Err ℚ := do
  let data ← get_column d c
  if data.length < 2 then pure 0
  else
    let count_b := countVal v2 data
    let count_ba := transitionCount v2 v1 data
    if count_b > 0 then pure ((count_ba : ℚ) / (count_b : ℚ))
    else pure 0

/-- Kind tag used to make the sort order total; cross-kind comparisons never
happen on inputs Python would accept (it raises `TypeError` there). -/
def Value.kindKey : Value → Nat
  | .null => 0
  | .num _ => 1
  | .str _ => 2

/-- Comparison used by the model of Python `sorted`: numeric order on numbers,
lexicographic order on strings. -/
def valueLe (a b : Value) : Bool :=
  match a, b with
  | .num x, .num y => decide (x ≤ y)
  | .str x, .str y => decide (x ≤ y)
  | _, _ => decide (a.kindKey ≤ b.kindKey)

/-- The sort comparison as a relation. -/
def vle (a b : Value) : Prop := valueLe a b = true

instance : DecidableRel vle := fun a b => by
  unfold vle; infer_instance

/-- All elements numeric. -/
def allNum (l : List Value) : Bool := l.all Value.isNum

/-- All elements strings. -/
def allStr (l : List Value) : Bool := l.all Value.isStr

/-- Model of Python `sorted` on scalar values.  A list of at most one element
sorts without any comparison; a homogeneous list (all numbers, or all strings)
sorts by the corresponding order; any other list (mixed kinds, or containing
`None` next to anything) raises `TypeError`, because CPython compares adjacent
elements and cross-kind / `None` comparisons are unsupported. -/
def pySorted (l : List Value) : Except Err (List Value) :=
  if l.length ≤ 1 then .ok l
  else if allNum l || allStr l then .ok (List.insertionSort vle l)
  else .error .typeError

/-- `Statistics.median`.  Sorts the full column (no null exclusion); empty column
gives `0.0`; odd length returns the middle element; even length first checks that
`sorted_data[0]` and `sorted_data[1]` are numeric (else `TypeError`) and then
averages the two central elements. -/
def median (d : Dataset) (c : String) : Except Err Value := do
  let data ← get_column d c
  if data.length = 0 then pure (.num 0)
  else do
    let n := data.length
    let sorted_data ← pySorted data
    if n % 2 = 1 then pure (sorted_data.getD (n / 2) .null)
    else
      if !(sorted_data.getD 0 .null).isNum || !(sorted_data.getD 1 .null).isNum then
        .error .typeError
      else
        pure (.num (((sorted_data.getD (n / 2 - 1) .null).toQ
          + (sorted_data.getD (n / 2) .null).toQ) / 2))

/-- `Statistics.variance`: population variance of the (all-numeric) column. -/
def variance (d : Dataset) (c : String) : Except Err ℚ := do
  let data ← get_column d c
  let _ ← assert_numeric data
  if data.length = 0 then pure 0
  else do
    let media ← mean d c
    pure ((data.foldl (fun acc v => acc + (v.toQ - media) ^ 2) 0) / (data.length : ℚ))

/-- `Statistics.stdev`: `variance ** 0.5`; the square root of an exact rational is
modelled as the real square root. -/
noncomputable def stdev (d : Dataset) (c : String) : Except Err ℝ := do
  let data ← get_column d c
  let _ ← assert_numeric data
  if data.length = 0 then pure 0
  else do
    let v ← variance d c
    pure (Real.sqrt (v : ℚ))

/-- `Statistics.covariance`. -/
def covariance (d : Dataset) (ca cb : String) : Except Err ℚ := do
  let dados_a ← get_column d ca
  let dados_b ← get_column d cb
  let _ ← assert_numeric dados_a
  let _ ← assert_numeric dados_b
  if dados_a.length ≠ dados_b.length then .error .valueError
  else if dados_a.length = 0 then pure 0
  else do
    let media_a ← mean d ca
    let media_b ← mean d cb
    pure (((dados_a.zip dados_b).foldl
      (fun acc p => acc + (p.1.toQ - media_a) * (p.2.toQ - media_b)) 0)
        / (dados_a.length : ℚ))

/-- One step of the Python dict-building loop
`frequencies[value] = frequencies.get(value, 0) + 1`: bump the count of the first
matching key, or append a fresh `(value, 1)` entry. -/
def bumpKey : List (Value × Nat) → Value → List (Value × Nat)
  | [], v => [(v, 1)]
  | (k, n) :: rest, v =>
    if k = v then (k, n + 1) :: rest else (k, n) :: bumpKey rest v

/-- `Statistics.absolute_frequency`: value -> occurrence count, first-seen order,
over the full column (no null exclusion). -/
def absolute_frequency (d : Dataset) (c : String) :
    Except Err (List (Value × Nat)) := do
  let values ← get_column d c
  pure (values.foldl bumpKey [])

/-- `Statistics.relative_frequency`: each absolute count divided by the total of
all counts; empty mapping only for a zero-length column. -/
def relative_frequency (d : Dataset) (c : String) :
    Except Err (List (Value × ℚ)) := do
  let stats ← get_column d c
  if stats.length = 0 then pure []
  else do
    let abs_freq ← absolute_frequency d c
    let total := (abs_freq.map Prod.snd).sum
    pure (abs_freq.map (fun p => (p.1, (p.2 : ℚ) / (total : ℚ))))

/-- Lookup in a rational-valued frequency table (keys always present in use). -/
def alookup : List (Value × ℚ) → Value → ℚ
  | [], _ => 0
  | (k, q) :: rest, v => if k = v then q else alookup rest v

/-- The accumulation loop of `cumulative_frequency`: running total over the
sorted keys, emitting `(key, cumulative)` in order. -/
def buildCum (m : List (Value × ℚ)) : ℚ → List Value → List (Value × ℚ)
  | _, [] => []
  | acc, k :: ks =>
    let c := acc + alookup m k
    (k, c) :: buildCum m c ks

/-- `Statistics.cumulative_frequency`.  Empty column returns `{}` before the mode
is examined; an unknown mode raises `ValueError`; keys are sorted ascending
(Python `sorted`, which raises `TypeError` on unorderable keys). -/
def cumulative_frequency (d : Dataset) (c : String)
    (frequency_method : String) : Except Err (List (Value × ℚ)) := do
  let data ← get_column d c
  if data.length = 0 then pure []
  else do
    let frequencies ←
      if frequency_method = "absolute" then
        (absolute_frequency d c).map (fun m => m.map (fun p => (p.1, (p.2 : ℚ))))
      else if frequency_method = "relative" then
        relative_frequency d c
      else
        Except.error Err.valueError
    let sorted_values ← pySorted (frequencies.map Prod.fst)
    pure (buildCum frequencies 0 sorted_values)

/-- Modelled from the spec: the helper `Statistics._non_null` is called
throughout `preprocessing_lib.py` but is absent from `src/food_statistics.py`.
Spec section 4.2: "`non_null(name)`: returns the sub-sequence of
`get_column(name)` excluding `null` markers, preserving relative order." -/
def non_null (d : Dataset) (c : String) : Except Err Column := do
  let data ← get_column d c
  pure (data.filter (fun v => decide (v ≠ Value.null)))

/-- Python `min` over a non-empty numeric list, as a fold from the head. -/
def foldMin (x : ℚ) (xs : List ℚ) : ℚ := xs.foldl min x

/-- Python `max` over a non-empty numeric list, as a fold from the head. -/
def foldMax (x : ℚ) (xs : List ℚ) : ℚ := xs.foldl max x

/-- Numeric contents of a column. -/
def qvals (vs : List Value) : List ℚ := vs.map Value.toQ

/-- Rewrite an existing column in place (Python dict assignment to an existing
key keeps its position). -/
def setCol (d : Dataset) (c : String) (vs : Column) : Dataset :=
  d.map (fun p => if p.1 = c then (p.1, vs) else p)

/-- Loop body of `Scaler.minMax_scaler` in `preprocessing.py`: works on the full
column (so any null raises `TypeError` from `_assert_numeric`); zero range
rewrites the column to all `0.0`, else scales each value by `(v - min)/diff`.
An empty column is skipped (`continue`). -/
def minMax_scaler_col (d : Dataset) (c : String) : Except Err Dataset := do
  let values ← get_column d c
  let _ ← assert_numeric values
  match values with
  | [] => pure d
  | v :: vs =>
    let v_min := foldMin v.toQ (qvals vs)
    let v_max := foldMax v.toQ (qvals vs)
    let diff := v_max - v_min
    let scaled :=
      if diff = 0 then values.map (fun _ => Value.num 0)
      else values.map (fun w => Value.num ((w.toQ - v_min) / diff))
    pure (setCol d c scaled)

/-- Loop body of `Scaler.minMax_scaler` in `preprocessing_lib.py`: min and max
are taken over the non-null values; each non-null entry is rewritten
(`0.0` on zero range, else `(v - min)/diff`) and null entries stay `None`;
a column with no non-null values is skipped. -/
def minMax_scaler_lib_col (d : Dataset) (c : String) : Except Err Dataset := do
  let values ← non_null d c
  let _ ← assert_numeric values
  match values with
  | [] => pure d
  | v :: vs =>
    let v_min := foldMin v.toQ (qvals vs)
    let v_max := foldMax v.toQ (qvals vs)
    let diff := v_max - v_min
    let col ← get_column d c
    pure (setCol d c (col.map (fun w =>
      if diff = 0 ∧ w ≠ Value.null then Value.num 0
      else if w ≠ Value.null then Value.num ((w.toQ - v_min) / diff)
      else Value.null)))

/-- `list(columns) if columns else list(self.dataset.keys())`: an absent or
empty selection targets every column. -/
def targetColumns (d : Dataset) (columns : Option (List String)) : List String :=
  match columns with
  | some cs => if cs = [] then d.map Prod.fst else cs
  | none => d.map Prod.fst

/-- `Scaler.minMax_scaler` (`preprocessing.py`): fold the loop body over the
target columns, threading the mutated dataset. -/
def minMax_scaler (d : Dataset) (columns : Option (List String)) :
    Except Err Dataset :=
  (targetColumns d columns).foldlM minMax_scaler_col d

/-- `Scaler.minMax_scaler` (`preprocessing_lib.py`): fold of its loop body. -/
def minMax_scaler_lib (d : Dataset) (columns : Option (List String)) :
    Except Err Dataset :=
  (targetColumns d columns).foldlM minMax_scaler_lib_col d

/-- `MissingValueProcessor._validate_columns`: `KeyError` on an unknown column. -/
def validate_columns (d : Dataset) (cols : List String) : Except Err Unit :=
  if cols.all (fun c => (dictGet d c).isSome) then .ok () else .error .keyError

/-- `MissingValueProcessor._get_target_columns`. -/
def get_target_columns (d : Dataset) (columns : Option (List String)) :
    Except Err (List String) := do
  let t := targetColumns d columns
  let _ ← validate_columns d t
  pure t

/-- The column lengths of a dataset. -/
def colLengths (d : Dataset) : List Nat := d.map (fun p => p.2.length)

/-- `len(set(lengths)) == 1` (vacuously true for no columns). -/
def allEqLengths (ls : List Nat) : Bool :=
  match ls with
  | [] => true
  | n :: rest => rest.all (fun m => m = n)

/-- The row predicate `dropna`/`notna` pass to `_filter_rows`: every targeted
column holds a non-null value at row `i`. -/
def rowKeep (d : Dataset) (tcols : List String) (i : Nat) : Bool :=
  tcols.all (fun c => decide (((dictGet d c).getD []).getD i Value.null ≠ Value.null))

/-- `MissingValueProcessor._filter_rows` (`preprocessing_lib.py`), specialised to
the all-non-null row condition used by `dropna` and `notna`: validates the
target columns, checks equal column lengths, selects the row indices satisfying
the condition and rebuilds every column (a fresh mapping of fresh lists). -/
def filter_rows (d : Dataset) (columns : Option (List String)) :
    Except Err Dataset := do
  let tcols ← get_target_columns d columns
  if allEqLengths (colLengths d) then
    let num_rows := (colLengths d).headD 0
    let indices := (List.range num_rows).filter (rowKeep d tcols)
    pure (d.map (fun p => (p.1, indices.map (fun i => p.2.getD i Value.null))))
  else .error .valueError

/-!
Heap model for the aliasing behaviour of `dropna`.  Python dict objects live in
a heap addressed by naturals; every component of `Preprocessing` stores the
address of the one dict supplied at construction.  `dropna` allocates a new
dict and rebinds only the missing-value processor's own `dataset` attribute.
-/

/-- The object heap: dict objects addressed by position. -/
abbrev Heap := List Dataset

/-- Read the dict object at an address. -/
def heapRead : Heap → Nat → Option Dataset
  | [], _ => none
  | ds :: _, 0 => some ds
  | _ :: rest, a + 1 => heapRead rest a

/-- Allocate a fresh dict object, returning the new heap and its address. -/
def heapAlloc (h : Heap) (ds : Dataset) : Heap × Nat := (h ++ [ds], h.length)

/-- `MissingValueProcessor` state: its `dataset` attribute and the dict address
held by its private `Statistics` engine (the same dict at construction). -/
structure MVProc where
  dsRef : Nat
  statsRef : Nat
deriving DecidableEq, Repr

/-- `MissingValueProcessor.__init__`: both attributes alias the supplied dict. -/
def MVProc.init (a : Nat) : MVProc := ⟨a, a⟩

/-- `MissingValueProcessor.dropna`: computes `_filter_rows` on the dict it
currently references and rebinds `self.dataset` to the freshly allocated
result; its statistics engine keeps the old reference. -/
def mvp_dropna (h : Heap) (p : MVProc) (columns : Option (List String)) :
    Except Err (Heap × MVProc) :=
  match heapRead h p.dsRef with
  | none => .error .keyError
  | some ds => do
    let filtered ← filter_rows ds columns
    let al := heapAlloc h filtered
    pure (al.1, { p with dsRef := al.2 })

/-- `Preprocessing` state (`preprocessing_lib.py`): its own `dataset` reference,
the reference held by its `Statistics` engine, and the composed
missing-value processor — all aliasing one dict at construction. -/
structure Preprocessing where
  dsRef : Nat
  statsRef : Nat
  mv : MVProc
deriving DecidableEq, Repr

/-- `Preprocessing.__init__` given the address of the caller's dict. -/
def Preprocessing.init (a : Nat) : Preprocessing := ⟨a, a, MVProc.init a⟩

/-- `Preprocessing.dropna`: delegates to the missing-value processor. -/
def prep_dropna (h : Heap) (p : Preprocessing) (columns : Option (List String)) :
    Except Err (Heap × Preprocessing) := do
  let r ← mvp_dropna h p.mv columns
  pure (r.1, { p with mv := r.2 })

/-!  General helper lemmas about the embedding. -/

/-- A left fold accumulating `+ g x` is the starting value plus the sum of `g`
over the list. -/
theorem foldl_add_eq_sum {γ : Type} (g : γ → ℚ) :
    ∀ (l : List γ) (a : ℚ), l.foldl (fun acc x => acc + g x) a = a + (l.map g).sum
  | [], a => by simp
  | x :: xs, a => by
    simp only [List.foldl_cons, List.map_cons, List.sum_cons]
    rw [foldl_add_eq_sum g xs]
    ring

/-- A left fold counting elements satisfying `p` is the starting value plus
`countP`. -/
theorem foldl_count_eq_countP {γ : Type} (p : γ → Prop) [DecidablePred p] :
    ∀ (l : List γ) (n : Nat),
      l.foldl (fun n x => if p x then n + 1 else n) n
        = n + l.countP (fun x => decide (p x))
  | [], n => by simp
  | x :: xs, n => by
    simp only [List.foldl_cons, List.countP_cons]
    rw [foldl_count_eq_countP p xs]
    by_cases h : p x <;> simp [h] <;> omega

/-- `sumQ` is the sum of the numeric contents. -/
theorem sumQ_eq_sum (l : List Value) : sumQ l = (l.map Value.toQ).sum := by
  simpa using foldl_add_eq_sum Value.toQ l 0

/-- The adjacent pairs of a list, recursively: exactly the pairs at positions
`(i, i+1)`. -/
def adjPairs : List Value → List (Value × Value)
  | [] => []
  | [_] => []
  | a :: b :: rest => (a, b) :: adjPairs (b :: rest)

/-- Python's `zip(data, data[1:])` produces exactly the adjacent pairs. -/
theorem zip_tail_eq_adjPairs : ∀ l : List Value, l.zip l.tail = adjPairs l
  | [] => rfl
  | [_] => rfl
  | a :: b :: rest => by
    show (a, b) :: (b :: rest).zip rest = (a, b) :: adjPairs (b :: rest)
    rw [← zip_tail_eq_adjPairs (b :: rest)]
    rfl

/-- `transitionCount` counts, among the adjacent pairs, those equal to
`(value2, value1)`. -/
theorem transitionCount_eq_countP (v2 v1 : Value) (data : List Value) :
    transitionCount v2 v1 data
      = (adjPairs data).countP (fun p => decide (p.1 = v2 ∧ p.2 = v1)) := by
  unfold transitionCount
  rw [zip_tail_eq_adjPairs]
  simpa using foldl_count_eq_countP (fun p : Value × Value => p.1 = v2 ∧ p.2 = v1)
    (adjPairs data) 0

/-- `countVal` agrees with `countP` of equality. -/
theorem countVal_eq_countP (v : Value) :
    ∀ l : List Value, countVal v l = l.countP (fun w => decide (w = v))
  | [] => rfl
  | w :: ws => by
    simp only [countVal, List.countP_cons, countVal_eq_countP v ws]
    by_cases h : w = v <;> simp [h] <;> omega

/-- Lookup in a count table (0 on a missing key, which never occurs in use). -/
def lookupN : List (Value × Nat) → Value → Nat
  | [], _ => 0
  | (k, n) :: rest, v => if k = v then n else lookupN rest v

theorem lookupN_bumpKey (v w : Value) :
    ∀ m : List (Value × Nat),
      lookupN (bumpKey m v) w = lookupN m w + if w = v then 1 else 0
  | [] => by
    by_cases h : w = v
    · subst h; simp [bumpKey, lookupN]
    · have h' : ¬ v = w := fun hh => h hh.symm
      simp [bumpKey, lookupN, h, h']
  | (k, n) :: rest => by
    by_cases hkv : k = v
    · subst hkv
      by_cases hwk : k = w
      · subst hwk; simp [bumpKey, lookupN]
      · have hwk' : ¬ w = k := fun hh => hwk hh.symm
        simp [bumpKey, lookupN, hwk, hwk']
    · by_cases hkw : k = w
      · subst hkw
        have hwv : ¬ k = v := hkv
        simp [bumpKey, lookupN, hkv]
      · simp [bumpKey, lookupN, hkv, hkw, lookupN_bumpKey v w rest]

/-- The frequency fold counts occurrences: looking up `v` in the table built
from `l` on top of `m` gives the old count plus `countVal v l`. -/
theorem lookupN_foldl_bumpKey (v : Value) :
    ∀ (l : List Value) (m : List (Value × Nat)),
      lookupN (l.foldl bumpKey m) v = lookupN m v + countVal v l
  | [], m => by simp [countVal]
  | x :: xs, m => by
    simp only [List.foldl_cons, countVal]
    rw [lookupN_foldl_bumpKey v xs (bumpKey m x), lookupN_bumpKey x v m]
    by_cases h : x = v
    · subst h; simp; omega
    · have h' : ¬ v = x := fun hh => h hh.symm
      simp [h, h']

/-- Total of the counts of a table. -/
def sumCounts (m : List (Value × Nat)) : Nat := (m.map Prod.snd).sum

theorem sumCounts_bumpKey (v : Value) :
    ∀ m : List (Value × Nat), sumCounts (bumpKey m v) = sumCounts m + 1
  | [] => by simp [bumpKey, sumCounts]
  | (k, n) :: rest => by
    by_cases h : k = v
    · simp [bumpKey, sumCounts, h]
      omega
    · simp only [bumpKey, sumCounts, List.map_cons, List.sum_cons, if_neg h]
      have hrec := sumCounts_bumpKey v rest
      simp only [sumCounts] at hrec
      omega

/-- The counts of the frequency table over `l` total `l.length` more than the
starting table. -/
theorem sumCounts_foldl_bumpKey :
    ∀ (l : List Value) (m : List (Value × Nat)),
      sumCounts (l.foldl bumpKey m) = sumCounts m + l.length
  | [], m => by simp
  | x :: xs, m => by
    simp only [List.foldl_cons, List.length_cons]
    rw [sumCounts_foldl_bumpKey xs (bumpKey m x), sumCounts_bumpKey x m]
    omega

/-- Keys after a bump: the old keys, plus `v` appended when it was absent. -/
theorem keys_bumpKey (v : Value) :
    ∀ m : List (Value × Nat),
      (bumpKey m v).map Prod.fst
        = if v ∈ m.map Prod.fst then m.map Prod.fst else m.map Prod.fst ++ [v]
  | [] => by simp [bumpKey]
  | (k, n) :: rest => by
    by_cases h : k = v
    · subst h; simp [bumpKey]
    · have h' : ¬ v = k := fun hh => h hh.symm
      simp [bumpKey, h, keys_bumpKey v rest]
      by_cases hm : v ∈ rest.map Prod.fst <;> simp [hm, h']

/-- Membership in the keys of the frequency table. -/
theorem mem_keys_foldl_bumpKey (w : Value) :
    ∀ (l : List Value) (m : List (Value × Nat)),
      (w ∈ (l.foldl bumpKey m).map Prod.fst) ↔ (w ∈ m.map Prod.fst ∨ w ∈ l)
  | [], m => by simp
  | x :: xs, m => by
    simp only [List.foldl_cons, List.mem_cons]
    rw [mem_keys_foldl_bumpKey w xs (bumpKey m x), keys_bumpKey x m]
    by_cases h : x ∈ m.map Prod.fst <;> by_cases hw : w = x <;>
      simp [h, hw] <;> tauto

/-- Mapping the table values through `g` with `g 0 = 0` commutes with lookup. -/
theorem alookup_map (g : Nat → ℚ) (hg : g 0 = 0) (v : Value) :
    ∀ m : List (Value × Nat),
      alookup (m.map (fun p => (p.1, g p.2))) v = g (lookupN m v)
  | [] => by simp [alookup, lookupN, hg]
  | (k, n) :: rest => by
    by_cases h : k = v <;>
      simp [alookup, lookupN, h, alookup_map g hg v rest]

instance : IsTotal Value vle := by
  constructor
  intro a b
  cases a <;> cases b <;> simp [vle, valueLe, Value.kindKey] <;>
    first
      | exact le_total _ _
      | omega

instance : IsTrans Value vle := by
  constructor
  intro a b c hab hbc
  cases a <;> cases b <;> cases c <;>
    simp_all [vle, valueLe, Value.kindKey] <;>
    first
      | exact le_trans hab hbc
      | omega

/-- A successful sort returns a permutation of the input. -/
theorem pySorted_perm {l s : List Value} (h : pySorted l = .ok s) : s.Perm l := by
  unfold pySorted at h
  by_cases h1 : l.length ≤ 1
  · simp [h1] at h
    subst h; rfl
  · by_cases h2 : allNum l || allStr l
    · simp [h1, h2] at h
      subst h
      exact List.perm_insertionSort _ l
    · simp [h1, h2] at h

/-- A successful sort returns a list sorted for `vle`. -/
theorem pySorted_sorted {l s : List Value} (h : pySorted l = .ok s) :
    s.Sorted vle := by
  unfold pySorted at h
  by_cases h1 : l.length ≤ 1
  · simp [h1] at h
    subst h
    match l, h1 with
    | [], _ => exact List.sorted_nil
    | [a], _ => exact List.sorted_singleton a
  · by_cases h2 : allNum l || allStr l
    · simp [h1, h2] at h
      subst h
      exact List.sorted_insertionSort vle l
    · simp [h1, h2] at h

/-- A homogeneous all-numeric list always sorts. -/
theorem pySorted_ok_of_allNum {l : List Value} (h : allNum l = true) :
    ∃ s, pySorted l = .ok s := by
  unfold pySorted
  by_cases h1 : l.length ≤ 1
  · exact ⟨l, by simp [h1]⟩
  · exact ⟨List.insertionSort vle l, by simp [h1, h]⟩

/-- A list with at least two elements one of which is `None` fails to sort. -/
theorem pySorted_err_of_null {l : List Value} (h2 : 2 ≤ l.length)
    (hn : Value.null ∈ l) : pySorted l = .error .typeError := by
  unfold pySorted
  have h1 : ¬ l.length ≤ 1 := by omega
  have ha : allNum l = false := by
    simp [allNum, List.all_eq_true]
    exact ⟨_, hn, by simp [Value.isNum]⟩
  have hb : allStr l = false := by
    simp [allStr, List.all_eq_true]
    exact ⟨_, hn, by simp [Value.isStr]⟩
  simp [h1, ha, hb]

/-- Numeric comparison through `vle` on numeric elements. -/
theorem vle_toQ {a b : Value} (ha : a.isNum = true) (hb : b.isNum = true)
    (h : vle a b) : a.toQ ≤ b.toQ := by
  cases a <;> cases b <;> simp_all [vle, valueLe, Value.isNum, Value.toQ]

/-- Reading below the old length is unchanged by an allocation. -/
theorem heapRead_append_lt :
    ∀ (h : Heap) (h2 : Heap) (a : Nat), a < h.length →
      heapRead (h ++ h2) a = heapRead h a
  | [], _, a, ha => by simp at ha
  | ds :: rest, h2, 0, _ => rfl
  | ds :: rest, h2, a + 1, ha => by
    simp only [List.cons_append, heapRead]
    exact heapRead_append_lt rest h2 a (by simpa using ha)

/-- Reading the freshly allocated address yields the new object. -/
theorem heapRead_append_self :
    ∀ (h : Heap) (ds : Dataset), heapRead (h ++ [ds]) h.length = some ds
  | [], ds => rfl
  | d0 :: rest, ds => by
    simp only [List.cons_append, List.length_cons, heapRead]
    exact heapRead_append_self rest ds

/-! Reduction lemmas for the `Except` monad used throughout. -/

@[simp] theorem exc_bind_ok {ε α β : Type} (a : α) (f : α → Except ε β) :
    (Except.ok a >>= f) = f a := rfl

@[simp] theorem exc_bind_error {ε α β : Type} (e : ε) (f : α → Except ε β) :
    ((Except.error e : Except ε α) >>= f) = Except.error e := rfl

@[simp] theorem exc_pure_eq_ok {ε α : Type} (a : α) :
    (pure a : Except ε α) = Except.ok a := rfl

@[simp] theorem exc_map_ok {ε α β : Type} (f : α → β) (a : α) :
    (f <$> (Except.ok a : Except ε α)) = Except.ok (f a) := rfl

@[simp] theorem exc_map_error {ε α β : Type} (f : α → β) (e : ε) :
    (f <$> (Except.error e : Except ε α)) = Except.error e := rfl

@[simp] theorem exc_emap_ok {ε α β : Type} (f : α → β) (a : α) :
    Except.map f (Except.ok a : Except ε α) = Except.ok (f a) := rfl

@[simp] theorem exc_emap_error {ε α β : Type} (f : α → β) (e : ε) :
    Except.map f (Except.error e : Except ε α) = Except.error e := rfl

/-! Concrete datasets used in counterexamples and witnesses. -/

/-- The empty column `{"x": []}`. -/
def dsEmptyCol : Dataset := [("x", ([] : Column))]

/-- `{"x": [1]}`. -/
def dsOne : Dataset := [("x", [Value.num 1])]

/-!  Claim C7. -/

/-- C7 (amended): for every existing non-empty column and every mode outside
{"absolute","relative"}, `cumulative_frequency` fails with `InvalidArgument`
(Python `ValueError`); but a zero-length column returns the empty table for
every mode string, the mode never being validated. -/
theorem C7_cumulative_frequency_mode_check (d : Dataset) (c : String)
    (data : Column) (m : String) (h : get_column d c = .ok data) :
    (data ≠ [] → m ≠ "absolute" → m ≠ "relative" →
      cumulative_frequency d c m = .error .valueError) ∧
    (data = [] → cumulative_frequency d c m = .ok []) := by
  constructor
  · intro hne hma hmr
    simp [cumulative_frequency, h, hma, hmr, hne]
  · intro he
    subst he
    simp [cumulative_frequency, h]

/-- C7 counterexample: on the existing zero-length column `{"x": []}` and the
invalid mode `"bogus"`, `cumulative_frequency` returns the empty table instead
of failing with `InvalidArgument`, contradicting the claim's
"including a zero-length column". -/
theorem C7_counterexample :
    cumulative_frequency dsEmptyCol "x" "bogus" = .ok [] ∧
    ∀ e : Err, cumulative_frequency dsEmptyCol "x" "bogus" ≠ .error e := by
  constructor
  · rfl
  · intro e h
    rw [show cumulative_frequency dsEmptyCol "x" "bogus" = .ok [] from rfl] at h
    exact Except.noConfusion h

/-- C7 witness: the amended theorem applied to `{"x": [1]}` with mode `"mode"`,
and to `{"x": []}` with the same mode. -/
theorem C7_witness :
    cumulative_frequency dsOne "x" "mode" = .error .valueError ∧
    cumulative_frequency dsEmptyCol "x" "mode" = .ok [] := by
  constructor
  · exact (C7_cumulative_frequency_mode_check dsOne "x" [Value.num 1] "mode"
      rfl).1 (by simp) (by simp) (by simp)
  · exact (C7_cumulative_frequency_mode_check dsEmptyCol "x" [] "mode" rfl).2 rfl

/-!  Claim C1. -/

/-- `{"x": [1, 2, 2, 3, None]}` — the claim's own example dataset. -/
def dsC1 : Dataset :=
  [("x", [Value.num 1, Value.num 2, Value.num 2, Value.num 3, Value.null])]

/-- `{"x": [1, 2, 2, 3]}`. -/
def dsC1w : Dataset :=
  [("x", [Value.num 1, Value.num 2, Value.num 2, Value.num 3])]

/-- C1 (amended): `mean(col)` averages ALL values of the column, with no null
exclusion: it fails with `TypeKind` (`TypeError`) as soon as any value —
including the null marker — is non-numeric; it returns `0.0` for a zero-length
column; and for a non-empty all-numeric column it returns the arithmetic mean
`sum / len`. -/
theorem C1_mean_no_null_exclusion (d : Dataset) (c : String) (data : Column)
    (h : get_column d c = .ok data) :
    ((¬ ∀ v ∈ data, v.isNum = true) → mean d c = .error .typeError) ∧
    ((∀ v ∈ data, v.isNum = true) → data = [] → mean d c = .ok 0) ∧
    ((∀ v ∈ data, v.isNum = true) → data ≠ [] →
      mean d c = .ok ((data.map Value.toQ).sum / (data.length : ℚ))) := by
  refine ⟨?_, ?_, ?_⟩
  · intro hn
    have hassert : assert_numeric data = .error .typeError := by
      unfold assert_numeric
      rw [if_neg (fun hh => hn (List.all_eq_true.mp hh))]
    simp [mean, h, hassert]
  · intro _ he
    subst he
    simp [mean, h, assert_numeric]
  · intro hnum hne
    have hassert : assert_numeric data = .ok () := by
      unfold assert_numeric
      rw [if_pos (List.all_eq_true.mpr hnum)]
    simp [mean, h, hassert, hne, sumQ_eq_sum]

/-- C1 counterexample: on the claim's own dataset `{"x": [1,2,2,3,None]}`,
`mean("x")` raises `TypeError` (the null marker is not numeric and nulls are
never excluded) instead of returning `2.0`. -/
theorem C1_counterexample :
    mean dsC1 "x" = .error .typeError ∧ mean dsC1 "x" ≠ .ok 2 := by
  refine ⟨rfl, ?_⟩
  intro h
  rw [show mean dsC1 "x" = .error .typeError from rfl] at h
  exact Except.noConfusion h

/-- C1 witness: the amended theorem on the null-free column `[1,2,2,3]` gives
mean `2`. -/
theorem C1_witness : mean dsC1w "x" = .ok 2 := by
  have h := (C1_mean_no_null_exclusion dsC1w "x"
    [Value.num 1, Value.num 2, Value.num 2, Value.num 3] rfl).2.2
    (by decide) (by decide)
  rw [h]
  norm_num [Value.toQ]

/-!  Claim C4. -/

/-- The all-null column `{"x": [None]}`. -/
def dsC4 : Dataset := [("x", [Value.null])]

/-- C4 (amended): `relative_frequency(col)` maps each distinct value of the
column — null markers included as ordinary values — to its count divided by
the total number of entries (the column length), and returns the empty mapping
exactly when the column has length zero; an all-null column yields
`{null: 1.0}`, not an empty mapping. -/
theorem C4_relative_frequency_counts_nulls (d : Dataset) (c : String)
    (data : Column) (h : get_column d c = .ok data) :
    (data = [] → relative_frequency d c = .ok []) ∧
    (data ≠ [] → ∃ m, relative_frequency d c = .ok m ∧ m ≠ [] ∧
      (∀ p ∈ m, p.1 ∈ data) ∧
      (∀ v ∈ data, alookup m v = (countVal v data : ℚ) / (data.length : ℚ))) := by
  constructor
  · intro he
    subst he
    simp [relative_frequency, h]
  · intro hne
    have hlen : ¬ data.length = 0 := by
      intro hh; exact hne (List.length_eq_zero.mp hh)
    set af := data.foldl bumpKey [] with haf
    have htotal : (af.map Prod.snd).sum = data.length := by
      have := sumCounts_foldl_bumpKey data []
      simpa [sumCounts, haf] using this
    refine ⟨af.map (fun p => (p.1, (p.2 : ℚ) / (data.length : ℚ))), ?_, ?_, ?_, ?_⟩
    · have step1 : relative_frequency d c
          = .ok (af.map (fun p =>
              (p.1, (p.2 : ℚ) / (((af.map Prod.snd).sum : ℕ) : ℚ)))) := by
        simp only [relative_frequency, h, exc_bind_ok, exc_pure_eq_ok,
          absolute_frequency]
        rw [if_neg (by simpa using hne), ← haf]
      rw [step1, htotal]
    · obtain ⟨v, hv⟩ := List.exists_mem_of_ne_nil data hne
      have hvk : v ∈ af.map Prod.fst := by
        rw [haf, mem_keys_foldl_bumpKey]
        simp [hv]
      intro hmnil
      have haf_nil : af = [] := List.map_eq_nil.mp hmnil
      rw [haf_nil] at hvk
      simp at hvk
    · intro p hp
      have : p.1 ∈ af.map Prod.fst := by
        rcases List.mem_map.mp hp with ⟨q, hq, rfl⟩
        exact List.mem_map.mpr ⟨q, hq, rfl⟩
      rw [haf, mem_keys_foldl_bumpKey] at this
      simpa using this
    · intro v _
      rw [alookup_map (fun n => (n : ℚ) / (data.length : ℚ)) (by simp) v af]
      have : lookupN af v = countVal v data := by
        simpa [lookupN] using lookupN_foldl_bumpKey v data []
      rw [this]

/-- C4 counterexample: on the all-null column `{"x": [None]}`,
`relative_frequency` returns `{None: 1.0}`, not the empty mapping the claim
requires for a column with no non-null values. -/
theorem C4_counterexample :
    relative_frequency dsC4 "x" = .ok [(Value.null, 1)] ∧
    relative_frequency dsC4 "x" ≠ .ok [] := by
  have hval : relative_frequency dsC4 "x" = .ok [(Value.null, 1)] := by
    norm_num [relative_frequency, dsC4, get_column, dictGet, absolute_frequency,
      bumpKey]
  refine ⟨hval, ?_⟩
  intro h
  rw [hval] at h
  simp at h

/-- C4 witness: the amended theorem on `{"x": [1,2,2,3]}`: the table is
non-empty and assigns `2` the proportion `2/4`. -/
theorem C4_witness :
    ∃ m, relative_frequency dsC1w "x" = .ok m ∧ m ≠ [] ∧
      alookup m (Value.num 2) = (1 : ℚ) / 2 := by
  obtain ⟨m, hm, hne, _, hval⟩ := (C4_relative_frequency_counts_nulls dsC1w "x"
    [Value.num 1, Value.num 2, Value.num 2, Value.num 3] rfl).2 (by decide)
  refine ⟨m, hm, hne, ?_⟩
  rw [hval (Value.num 2) (by decide)]
  norm_num [countVal]

/-!  Claim C2. -/

/-- Written from the spec's words, for comparison with the code:
`conditional_probability` computed over the sequence of NON-NULL values of the
column — denominator counts `value2` in that null-free sequence, numerator
counts its adjacent `(value2, value1)` pairs, `0.0` when it has fewer than two
elements or the denominator is zero. -/
def condProbSpecWords (d : Dataset) (c : String) (v1 v2 : Value) :
    Except Err ℚ := do
  let data ← get_column d c
  let nn := data.filter (fun v => decide (v ≠ Value.null))
  if nn.length < 2 then pure 0
  else
    let count_b := countVal v2 nn
    let count_ba := transitionCount v2 v1 nn
    if count_b > 0 then pure ((count_ba : ℚ) / (count_b : ℚ))
    else pure 0

/-- `{"x": [2, None, 1]}`. -/
def dsC2 : Dataset := [("x", [Value.num 2, Value.null, Value.num 1])]

/-- `{"x": [2, 1, 2, 1, 3]}` — the claim's example. -/
def dsC2w : Dataset :=
  [("x", [Value.num 2, Value.num 1, Value.num 2, Value.num 1, Value.num 3])]

/-- C2 (amended): `conditional_probability` works on the FULL column sequence,
nulls included as ordinary elements (a null breaks adjacency and the length
test counts it): the denominator is the count of `value2` in the full column,
the numerator the count of adjacent `(value2, value1)` pairs of the full
column, the ratio is exact, and `0.0` is returned when the full column has
fewer than two entries or the denominator is zero. -/
theorem C2_conditional_probability_full_column (d : Dataset) (c : String)
    (v1 v2 : Value) (data : Column) (h : get_column d c = .ok data) :
    (data.length < 2 → conditional_probability d c v1 v2 = .ok 0) ∧
    (2 ≤ data.length → countVal v2 data = 0 →
      conditional_probability d c v1 v2 = .ok 0) ∧
    (2 ≤ data.length → 0 < countVal v2 data →
      conditional_probability d c v1 v2
        = .ok (((adjPairs data).countP
            (fun p => decide (p.1 = v2 ∧ p.2 = v1)) : ℚ)
          / (countVal v2 data : ℚ))) := by
  refine ⟨?_, ?_, ?_⟩
  · intro hlt
    simp [conditional_probability, h, hlt]
  · intro hge hz
    have hlt : ¬ data.length < 2 := by omega
    simp [conditional_probability, h, hlt, hz]
  · intro hge hpos
    have hlt : ¬ data.length < 2 := by omega
    simp [conditional_probability, h, hlt, hpos, transitionCount_eq_countP]

/-- C2 counterexample: on `{"x": [2, None, 1]}` the code returns `0.0` (the
null breaks the `2 -> 1` adjacency and stays in the sequence), while the
claim's computation over the non-null sequence `[2, 1]` yields `1.0`. -/
theorem C2_counterexample :
    conditional_probability dsC2 "x" (Value.num 1) (Value.num 2) = .ok 0 ∧
    condProbSpecWords dsC2 "x" (Value.num 1) (Value.num 2) = .ok 1 := by
  constructor
  · norm_num +decide [conditional_probability, dsC2, get_column, dictGet,
      countVal, transitionCount]
  · norm_num +decide [condProbSpecWords, dsC2, get_column, dictGet, countVal,
      transitionCount]

/-- C2 witness: the amended theorem on the claim's example
`x = [2,1,2,1,3]` gives `1.0`. -/
theorem C2_witness :
    conditional_probability dsC2w "x" (Value.num 1) (Value.num 2) = .ok 1 := by
  have h := (C2_conditional_probability_full_column dsC2w "x"
    (Value.num 1) (Value.num 2)
    [Value.num 2, Value.num 1, Value.num 2, Value.num 1, Value.num 3] rfl).2.2
    (by decide) (by decide)
  rw [h]
  norm_num [adjPairs, countVal, List.countP, List.countP.go]

/-!  Claim C6. -/

/-- Mapping a binary function over a zipped list is `zipWith`. -/
theorem map_zip_eq_zipWith {α β γ : Type} (f : α → β → γ) :
    ∀ (l1 : List α) (l2 : List β),
      (l1.zip l2).map (fun p => f p.1 p.2) = List.zipWith f l1 l2
  | [], _ => by simp
  | _ :: _, [] => by simp
  | a :: l1, b :: l2 => by simp [map_zip_eq_zipWith f l1 l2]

/-- The covariance accumulation loop as a `zipWith` over the numeric contents. -/
theorem cov_fold_eq_zipWith (da db : List Value) (mA mB : ℚ) :
    (da.zip db).foldl (fun acc p => acc + (p.1.toQ - mA) * (p.2.toQ - mB)) 0
      = (List.zipWith (fun x y => (x - mA) * (y - mB))
          (da.map Value.toQ) (db.map Value.toQ)).sum := by
  rw [foldl_add_eq_sum (fun p : Value × Value => (p.1.toQ - mA) * (p.2.toQ - mB))
    (da.zip db) 0]
  rw [map_zip_eq_zipWith (fun a b => (a.toQ - mA) * (b.toQ - mB)) da db]
  rw [List.zipWith_map]
  simp

/-- `{"a": [1, None], "b": [2, 3]}`. -/
def dsC6 : Dataset :=
  [("a", [Value.num 1, Value.null]), ("b", [Value.num 2, Value.num 3])]

/-- `{"a": [1, 2, 3], "b": [2, 4, 6]}` — the claim's example. -/
def dsAB : Dataset :=
  [("a", [Value.num 1, Value.num 2, Value.num 3]),
   ("b", [Value.num 2, Value.num 4, Value.num 6])]

/-- C6 (amended): `covariance` performs NO null discarding: any null marker in
either column fails with `TypeKind` (`TypeError`), since both full columns must
be numeric; mismatched lengths fail with `ValueError`; two empty columns give
`0.0`; otherwise the result is the mean over index pairs `(x, y)` of
`(x - meanA) * (y - meanB)`, with each mean the full-column arithmetic mean. -/
theorem C6_covariance_no_null_discard (d : Dataset) (ca cb : String)
    (da db : Column) (ha : get_column d ca = .ok da)
    (hb : get_column d cb = .ok db) :
    ((Value.null ∈ da ∨ Value.null ∈ db) →
      covariance d ca cb = .error .typeError) ∧
    ((∀ v ∈ da, v.isNum = true) → (∀ v ∈ db, v.isNum = true) →
      (da.length ≠ db.length → covariance d ca cb = .error .valueError) ∧
      (da.length = db.length → da = [] → covariance d ca cb = .ok 0) ∧
      (da.length = db.length → da ≠ [] →
        covariance d ca cb = .ok ((List.zipWith
          (fun x y => (x - (da.map Value.toQ).sum / (da.length : ℚ))
            * (y - (db.map Value.toQ).sum / (db.length : ℚ)))
          (da.map Value.toQ) (db.map Value.toQ)).sum / (da.length : ℚ)))) := by
  constructor
  · intro hnull
    by_cases hda : da.all Value.isNum = true
    · have hdanull : Value.null ∉ da := by
        intro hmem
        have := List.all_eq_true.mp hda _ hmem
        simp [Value.isNum] at this
      have hdbnull : Value.null ∈ db := hnull.resolve_left hdanull
      have hdb : ¬ db.all Value.isNum = true := by
        intro hh
        have := List.all_eq_true.mp hh _ hdbnull
        simp [Value.isNum] at this
      have ha1 : assert_numeric da = .ok () := by
        unfold assert_numeric; rw [if_pos hda]
      have hb1 : assert_numeric db = .error .typeError := by
        unfold assert_numeric; rw [if_neg hdb]
      simp [covariance, ha, hb, ha1, hb1]
    · have ha1 : assert_numeric da = .error .typeError := by
        unfold assert_numeric; rw [if_neg hda]
      simp [covariance, ha, hb, ha1]
  · intro hna hnb
    have ha1 : assert_numeric da = .ok () := by
      unfold assert_numeric; rw [if_pos (List.all_eq_true.mpr hna)]
    have hb1 : assert_numeric db = .ok () := by
      unfold assert_numeric; rw [if_pos (List.all_eq_true.mpr hnb)]
    refine ⟨?_, ?_, ?_⟩
    · intro hlen
      simp [covariance, ha, hb, ha1, hb1, hlen]
    · intro hlen he
      subst he
      have hcond : ¬ ((0 : Nat) ≠ db.length) := by
        intro hh; exact hh hlen.symm.symm
      simp [covariance, ha, hb, ha1, hb1, ← hlen]
    · intro hlen hne
      have hdbne : db ≠ [] := by
        intro hh
        rw [hh] at hlen
        simp at hlen
        exact hne hlen
      have hmean_a : mean d ca = .ok ((da.map Value.toQ).sum / (da.length : ℚ)) := by
        simp [mean, ha, ha1, hne, sumQ_eq_sum]
      have hmean_b : mean d cb = .ok ((db.map Value.toQ).sum / (db.length : ℚ)) := by
        simp [mean, hb, hb1, hdbne, sumQ_eq_sum]
      have hcond : ¬ (da.length ≠ db.length) := fun hh => hh hlen
      simp [covariance, ha, hb, ha1, hb1, hcond, hne, hmean_a, hmean_b,
        cov_fold_eq_zipWith]

/-- C6 counterexample: on `a = [1, None]`, `b = [2, 3]` the code fails with
`TypeError` instead of discarding the null pair and returning a number (the
claim would retain the all-numeric pair `(1, 2)` and produce a value). -/
theorem C6_counterexample :
    covariance dsC6 "a" "b" = .error .typeError ∧
    ∀ q : ℚ, covariance dsC6 "a" "b" ≠ .ok q := by
  have hval : covariance dsC6 "a" "b" = .error .typeError := rfl
  refine ⟨hval, ?_⟩
  intro q h
  rw [hval] at h
  exact Except.noConfusion h

/-- C6 witness: the amended theorem on the claim's example
`a = [1,2,3], b = [2,4,6]` gives `4/3`. -/
theorem C6_witness : covariance dsAB "a" "b" = .ok ((4 : ℚ) / 3) := by
  have h := ((C6_covariance_no_null_discard dsAB "a" "b"
    [Value.num 1, Value.num 2, Value.num 3]
    [Value.num 2, Value.num 4, Value.num 6] rfl rfl).2
    (by decide) (by decide)).2.2 rfl (by decide)
  rw [h]
  norm_num [Value.toQ]

/-!  Claim C8. -/

/-- C8: for every numeric column, the population variance is non-negative and
`stdev` is exactly the non-negative square root of `variance`: there are `q`
and `r` with `variance = ok q`, `q >= 0`, `stdev = ok r`, `r >= 0` and
`r ^ 2 = q`. -/
theorem C8_stdev_is_sqrt_of_variance (d : Dataset) (c : String) (data : Column)
    (h : get_column d c = .ok data) (hnum : ∀ v ∈ data, v.isNum = true) :
    ∃ (q : ℚ) (r : ℝ), variance d c = .ok q ∧ 0 ≤ q ∧
      stdev d c = .ok r ∧ 0 ≤ r ∧ r ^ 2 = (q : ℝ) := by
  have h1 : assert_numeric data = .ok () := by
    unfold assert_numeric; rw [if_pos (List.all_eq_true.mpr hnum)]
  by_cases he : data = []
  · subst he
    refine ⟨0, 0, ?_, le_refl 0, ?_, le_refl 0, by norm_num⟩
    · simp [variance, h, h1]
    · simp [stdev, h, h1]
  · have hmean : mean d c = .ok ((data.map Value.toQ).sum / (data.length : ℚ)) := by
      simp [mean, h, h1, he, sumQ_eq_sum]
    set μ := (data.map Value.toQ).sum / (data.length : ℚ) with hμ
    set q := (data.map (fun v => (v.toQ - μ) ^ 2)).sum / (data.length : ℚ) with hq
    have hfold : data.foldl (fun acc v => acc + (v.toQ - μ) ^ 2) 0
        = (data.map (fun v => (v.toQ - μ) ^ 2)).sum := by
      simpa using foldl_add_eq_sum (fun v : Value => (v.toQ - μ) ^ 2) data 0
    have hvar : variance d c = .ok q := by
      simp [variance, h, h1, he, hmean, hfold, hq]
    have hqpos : 0 ≤ q := by
      rw [hq]
      apply div_nonneg
      · apply List.sum_nonneg
        intro x hx
        rcases List.mem_map.mp hx with ⟨v, _, rfl⟩
        exact sq_nonneg _
      · exact Nat.cast_nonneg _
    have hsd : stdev d c = .ok (Real.sqrt (q : ℝ)) := by
      simp [stdev, h, h1, he, hvar]
    exact ⟨q, Real.sqrt (q : ℝ), hvar, hqpos, hsd, Real.sqrt_nonneg _,
      Real.sq_sqrt (by exact_mod_cast hqpos)⟩

/-- C8 witness: the theorem instantiated on the numeric column
`{"a": [1,2,3]}`. -/
theorem C8_witness :
    ∃ (q : ℚ) (r : ℝ), variance dsAB "a" = .ok q ∧ 0 ≤ q ∧
      stdev dsAB "a" = .ok r ∧ 0 ≤ r ∧ r ^ 2 = (q : ℝ) :=
  C8_stdev_is_sqrt_of_variance dsAB "a"
    [Value.num 1, Value.num 2, Value.num 3] rfl (by decide)

/-!  Claim C9. -/

/-- Folding `min` over a list of copies of `c` stays `c`. -/
theorem foldMin_const (c : ℚ) :
    ∀ xs : List ℚ, (∀ x ∈ xs, x = c) → foldMin c xs = c
  | [], _ => rfl
  | x :: xs, h => by
    have hx : x = c := h x (List.mem_cons_self x xs)
    have hstep : foldMin c (x :: xs) = foldMin (min c x) xs := rfl
    rw [hstep, hx, min_self]
    exact foldMin_const c xs (fun y hy => h y (List.mem_cons_of_mem x hy))

/-- Folding `max` over a list of copies of `c` stays `c`. -/
theorem foldMax_const (c : ℚ) :
    ∀ xs : List ℚ, (∀ x ∈ xs, x = c) → foldMax c xs = c
  | [], _ => rfl
  | x :: xs, h => by
    have hx : x = c := h x (List.mem_cons_self x xs)
    have hstep : foldMax c (x :: xs) = foldMax (max c x) xs := rfl
    rw [hstep, hx, max_self]
    exact foldMax_const c xs (fun y hy => h y (List.mem_cons_of_mem x hy))

/-- `{"x": [5, None]}`. -/
def dsC9 : Dataset := [("x", [Value.num 5, Value.null])]

/-- `{"x": [5, 5, 5]}` — the claim's example of a constant column. -/
def dsC9w : Dataset := [("x", [Value.num 5, Value.num 5, Value.num 5])]

/-- C9 (amended): zero-range min-max scaling takes the `diff = 0` branch and
never divides.  In `preprocessing.py` the scaler works on the full column (a
null fails with `TypeError` before any arithmetic) and a non-empty constant
numeric column is rewritten to all `0.0`.  In `preprocessing_lib.py` min and
max range over the non-null values; when those are all equal, every non-null
entry becomes `0.0` while null entries are preserved as `None` — so a column
with nulls is NOT rewritten to all `0.0`. -/
theorem C9_minMax_zero_range (d : Dataset) (c : String) :
    (∀ values, get_column d c = .ok values → values ≠ [] →
      (∀ v ∈ values, v.isNum = true) →
      (∀ v ∈ values, v.toQ = (values.headD .null).toQ) →
      minMax_scaler_col d c
        = .ok (setCol d c (values.map (fun _ => Value.num 0)))) ∧
    (∀ col nn, get_column d c = .ok col →
      nn = col.filter (fun v => decide (v ≠ Value.null)) → nn ≠ [] →
      (∀ v ∈ nn, v.isNum = true) →
      (∀ v ∈ nn, v.toQ = (nn.headD .null).toQ) →
      minMax_scaler_lib_col d c = .ok (setCol d c (col.map (fun w =>
        if w = Value.null then Value.null else Value.num 0)))) := by
  constructor
  · intro values h hne hnum hconst
    obtain ⟨v, vs, rfl⟩ := List.exists_cons_of_ne_nil hne
    have h1 : assert_numeric (v :: vs) = .ok () := by
      unfold assert_numeric; rw [if_pos (List.all_eq_true.mpr hnum)]
    have hmin : foldMin v.toQ (qvals vs) = v.toQ := by
      apply foldMin_const
      intro x hx
      rcases List.mem_map.mp hx with ⟨w, hw, rfl⟩
      simpa using hconst w (List.mem_cons_of_mem v hw)
    have hmax : foldMax v.toQ (qvals vs) = v.toQ := by
      apply foldMax_const
      intro x hx
      rcases List.mem_map.mp hx with ⟨w, hw, rfl⟩
      simpa using hconst w (List.mem_cons_of_mem v hw)
    simp [minMax_scaler_col, h, h1, hmin, hmax, List.replicate_succ]
  · intro col nn h hnn hne hnum hconst
    have hfilter : non_null d c = .ok nn := by
      rw [hnn]
      simp [non_null, h]
    obtain ⟨v, vs, rfl⟩ := List.exists_cons_of_ne_nil hne
    have h1 : assert_numeric (v :: vs) = .ok () := by
      unfold assert_numeric; rw [if_pos (List.all_eq_true.mpr hnum)]
    have hmin : foldMin v.toQ (qvals vs) = v.toQ := by
      apply foldMin_const
      intro x hx
      rcases List.mem_map.mp hx with ⟨w, hw, rfl⟩
      simpa using hconst w (List.mem_cons_of_mem v hw)
    have hmax : foldMax v.toQ (qvals vs) = v.toQ := by
      apply foldMax_const
      intro x hx
      rcases List.mem_map.mp hx with ⟨w, hw, rfl⟩
      simpa using hconst w (List.mem_cons_of_mem v hw)
    have hstep : minMax_scaler_lib_col d c
        = .ok (setCol d c (col.map (fun w =>
            if (0 : ℚ) = 0 ∧ w ≠ Value.null then Value.num 0
            else if w ≠ Value.null then Value.num ((w.toQ - v.toQ) / 0)
            else Value.null))) := by
      simp only [minMax_scaler_lib_col, hfilter, exc_bind_ok, exc_pure_eq_ok,
        h, h1, hmin, hmax, sub_self]
    rw [hstep]
    have hmap : col.map (fun w =>
          if (0 : ℚ) = 0 ∧ w ≠ Value.null then Value.num 0
          else if w ≠ Value.null then Value.num ((w.toQ - v.toQ) / 0)
          else Value.null)
        = col.map (fun w =>
            if w = Value.null then Value.null else Value.num 0) := by
      apply List.map_congr_left
      intro w _
      by_cases hw : w = Value.null
      · simp [hw]
      · simp [hw]
    rw [hmap]

/-- C9 counterexample: on `{"x": [5, None]}` the non-null values are all equal
(zero range), but the `preprocessing_lib.py` scaler rewrites the column to
`[0.0, None]` — not all `0.0` — and the `preprocessing.py` scaler fails with
`TypeError` on the null before any scaling. -/
theorem C9_counterexample :
    minMax_scaler_lib_col dsC9 "x" = .ok [("x", [Value.num 0, Value.null])] ∧
    ([Value.num 0, Value.null] : Column) ≠ [Value.num 0, Value.num 0] ∧
    minMax_scaler_col dsC9 "x" = .error .typeError := by
  refine ⟨?_, by decide, rfl⟩
  norm_num +decide [minMax_scaler_lib_col, dsC9, non_null, get_column, dictGet,
    assert_numeric, foldMin, foldMax, qvals, setCol, Value.toQ]

/-- C9 witness: both theorem parts applied to the constant column
`{"x": [5,5,5]}`, which is rewritten to all `0.0` with no division. -/
theorem C9_witness :
    minMax_scaler_col dsC9w "x"
      = .ok [("x", [Value.num 0, Value.num 0, Value.num 0])] ∧
    minMax_scaler_lib_col dsC9w "x"
      = .ok [("x", [Value.num 0, Value.num 0, Value.num 0])] := by
  constructor
  · have h := (C9_minMax_zero_range dsC9w "x").1
      [Value.num 5, Value.num 5, Value.num 5] rfl (by decide) (by decide)
      (by intro v hv; simp at hv; subst hv; rfl)
    rw [h]
    rfl
  · have h := (C9_minMax_zero_range dsC9w "x").2
      [Value.num 5, Value.num 5, Value.num 5]
      [Value.num 5, Value.num 5, Value.num 5] rfl (by simp) (by decide)
      (by decide) (by intro v hv; simp at hv; subst hv; rfl)
    rw [h]
    rfl

/-!  Claim C5. -/

/-- `getD` at an in-range index is a member. -/
theorem getD_mem_of_lt {l : List Value} {n : Nat} (h : n < l.length) :
    l.getD n .null ∈ l := by
  rw [List.getD_eq_getElem l .null h]
  exact List.getElem_mem h

/-- A string value is not numeric. -/
theorem isNum_false_of_isStr {v : Value} (h : v.isStr = true) :
    v.isNum = false := by
  cases v <;> simp_all [Value.isStr, Value.isNum]

/-- `{"x": [1, None]}`. -/
def dsNumNull : Dataset := [("x", [Value.num 1, Value.null])]

/-- C5 (amended): `median` sorts the FULL column, nulls included: a column of
two or more entries containing a null fails with `TypeKind` (unorderable sort),
as does an all-string column of even length (the numeric check is applied to
the two smallest sorted elements); the empty column returns `0.0`; and on a
non-empty all-numeric column there is a numerically sorted permutation `s` of
the data with the middle element `s[n/2]` returned for odd `n` and the average
of the two central elements returned for even `n`. -/
theorem C5_median_sorts_full_column (d : Dataset) (c : String) (data : Column)
    (h : get_column d c = .ok data) :
    (data = [] → median d c = .ok (.num 0)) ∧
    (2 ≤ data.length → Value.null ∈ data → median d c = .error .typeError) ∧
    (allStr data = true → 2 ≤ data.length → data.length % 2 = 0 →
      median d c = .error .typeError) ∧
    ((∀ v ∈ data, v.isNum = true) → data ≠ [] →
      ∃ s : Column, s.Perm data ∧ s.Sorted (fun a b => a.toQ ≤ b.toQ) ∧
        (data.length % 2 = 1 →
          median d c = .ok (s.getD (data.length / 2) .null)) ∧
        (data.length % 2 = 0 →
          median d c = .ok (.num (((s.getD (data.length / 2 - 1) .null).toQ
            + (s.getD (data.length / 2) .null).toQ) / 2)))) := by
  refine ⟨?_, ?_, ?_, ?_⟩
  · intro he
    subst he
    simp [median, h]
  · intro h2 hn
    have hne : data ≠ [] := by
      intro hh; subst hh; simp at h2
    have hsort := pySorted_err_of_null h2 hn
    simp [median, h, hne, hsort]
  · intro hstr h2 heven
    have hne : data ≠ [] := by
      intro hh; subst hh; simp at h2
    have hodd : ¬ data.length % 2 = 1 := by omega
    have hsort : pySorted data = .ok (List.insertionSort vle data) := by
      unfold pySorted
      rw [if_neg (by omega), if_pos (by simp [hstr])]
    have hperm := List.perm_insertionSort vle data
    have hlen : (List.insertionSort vle data).length = data.length :=
      hperm.length_eq
    have hmem0 : (List.insertionSort vle data).getD 0 .null
        ∈ List.insertionSort vle data := getD_mem_of_lt (by omega)
    have hstr0 : ((List.insertionSort vle data).getD 0 .null).isNum = false := by
      apply isNum_false_of_isStr
      have := hperm.mem_iff.mp hmem0
      exact List.all_eq_true.mp hstr _ this
    rw [List.getD_eq_getElem?_getD] at hstr0
    simp [median, h, hne, hsort, hodd, hstr0]
  · intro hnum hne
    have hallnum : allNum data = true := List.all_eq_true.mpr hnum
    obtain ⟨s, hs⟩ := pySorted_ok_of_allNum hallnum
    have hperm : s.Perm data := pySorted_perm hs
    have hsorted : s.Sorted (fun a b => a.toQ ≤ b.toQ) := by
      refine (pySorted_sorted hs).imp_of_mem ?_
      intro a b ha hb hab
      exact vle_toQ
        (List.all_eq_true.mp hallnum _ (hperm.mem_iff.mp ha))
        (List.all_eq_true.mp hallnum _ (hperm.mem_iff.mp hb)) hab
    refine ⟨s, hperm, hsorted, ?_, ?_⟩
    · intro hodd
      simp [median, h, hne, hs, hodd]
    · intro heven
      have hodd : ¬ data.length % 2 = 1 := by omega
      have hlen2 : 2 ≤ data.length := by
        have : data.length ≠ 0 := by
          intro hh; exact hne (List.length_eq_zero.mp hh)
        omega
      have hslen : s.length = data.length := hperm.length_eq
      have hnum0 : (s.getD 0 .null).isNum = true :=
        hnum _ (hperm.mem_iff.mp (getD_mem_of_lt (by omega)))
      have hnum1 : (s.getD 1 .null).isNum = true :=
        hnum _ (hperm.mem_iff.mp (getD_mem_of_lt (by omega)))
      rw [List.getD_eq_getElem?_getD] at hnum0 hnum1
      simp [median, h, hne, hs, hodd, hnum0, hnum1]

/-- C5 counterexample: on `{"x": [1, None]}` the claim prescribes the median of
the non-null values `[1]` (namely `1`), but the code sorts the full column and
fails with `TypeError` on the unorderable null. -/
theorem C5_counterexample :
    median dsNumNull "x" = .error .typeError ∧
    median dsNumNull "x" ≠ .ok (Value.num 1) := by
  have hval : median dsNumNull "x" = .error .typeError := rfl
  refine ⟨hval, ?_⟩
  intro hh
  rw [hval] at hh
  exact Except.noConfusion hh

/-- C5 witness: the numeric branch of the amended theorem applied to
`{"x": [1,2,2,3]}` (even length 4). -/
theorem C5_witness :
    ∃ s : Column, s.Perm [Value.num 1, Value.num 2, Value.num 2, Value.num 3] ∧
      s.Sorted (fun a b => a.toQ ≤ b.toQ) ∧
      (([Value.num 1, Value.num 2, Value.num 2, Value.num 3] : Column).length % 2 = 1 →
        median dsC1w "x" = .ok (s.getD
          (([Value.num 1, Value.num 2, Value.num 2, Value.num 3] : Column).length / 2) .null)) ∧
      (([Value.num 1, Value.num 2, Value.num 2, Value.num 3] : Column).length % 2 = 0 →
        median dsC1w "x" = .ok (.num (((s.getD
          (([Value.num 1, Value.num 2, Value.num 2, Value.num 3] : Column).length / 2 - 1) .null).toQ
          + (s.getD (([Value.num 1, Value.num 2, Value.num 2, Value.num 3] : Column).length / 2) .null).toQ) / 2))) :=
  (C5_median_sorts_full_column dsC1w "x"
    [Value.num 1, Value.num 2, Value.num 2, Value.num 3] rfl).2.2.2
    (by decide) (by decide)

/-!  Claim C10. -/

/-- A successful read implies the address is within the heap. -/
theorem heapRead_lt_length :
    ∀ (h : Heap) (a : Nat) (ds : Dataset),
      heapRead h a = some ds → a < h.length
  | [], a, ds, hh => by simp [heapRead] at hh
  | d0 :: rest, 0, ds, _ => by simp
  | d0 :: rest, a + 1, ds, hh => by
    have := heapRead_lt_length rest a ds (by simpa [heapRead] using hh)
    simpa using Nat.succ_lt_succ this

/-- C10: `dropna` never mutates the dict supplied at construction.  Starting
from a heap where address `a` holds the caller's dataset `ds`, a successful
`Preprocessing.dropna` (which delegates to `MissingValueProcessor.dropna`)
allocates the filtered result at a fresh address and rebinds only the
missing-value processor's own `dataset` attribute: every pre-existing heap cell
is unchanged, the caller's address still holds `ds` with all original rows, and
the facade's `dataset` reference and both `Statistics` engines still alias
address `a`. -/
theorem C10_dropna_preserves_caller_dataset (h : Heap) (a : Nat) (ds : Dataset)
    (cols : Option (List String)) (f : Dataset)
    (hread : heapRead h a = some ds)
    (hf : filter_rows ds cols = .ok f) :
    ∃ (h2 : Heap) (p2 : Preprocessing),
      prep_dropna h (Preprocessing.init a) cols = .ok (h2, p2) ∧
      (∀ b, b < h.length → heapRead h2 b = heapRead h b) ∧
      heapRead h2 a = some ds ∧
      p2.dsRef = a ∧ p2.statsRef = a ∧ p2.mv.statsRef = a ∧
      p2.mv.dsRef = h.length ∧ heapRead h2 p2.mv.dsRef = some f := by
  have hstep : prep_dropna h (Preprocessing.init a) cols
      = .ok (h ++ [f], ⟨a, a, ⟨h.length, a⟩⟩) := by
    simp [prep_dropna, mvp_dropna, Preprocessing.init, MVProc.init, hread, hf,
      heapAlloc]
  refine ⟨h ++ [f], ⟨a, a, ⟨h.length, a⟩⟩, hstep, ?_, ?_, rfl, rfl, rfl, rfl, ?_⟩
  · intro b hb
    exact heapRead_append_lt h [f] b hb
  · rw [heapRead_append_lt h [f] a (heapRead_lt_length h a ds hread)]
    exact hread
  · exact heapRead_append_self h f

/-- The caller's dataset for the C10 witness:
`{"x": [1, None], "y": [2, 3]}`. -/
def dsC10 : Dataset :=
  [("x", [Value.num 1, Value.null]), ("y", [Value.num 2, Value.num 3])]

/-- C10 witness: the theorem applied to a one-object heap holding
`{"x": [1, None], "y": [2, 3]}`; `dropna` keeps row 0 only in the fresh copy
while the caller's object is untouched. -/
theorem C10_witness :
    ∃ (h2 : Heap) (p2 : Preprocessing),
      prep_dropna [dsC10] (Preprocessing.init 0) none = .ok (h2, p2) ∧
      (∀ b, b < ([dsC10] : Heap).length → heapRead h2 b = heapRead [dsC10] b) ∧
      heapRead h2 0 = some dsC10 ∧
      p2.dsRef = 0 ∧ p2.statsRef = 0 ∧ p2.mv.statsRef = 0 ∧
      p2.mv.dsRef = ([dsC10] : Heap).length ∧
      heapRead h2 p2.mv.dsRef
        = some [("x", [Value.num 1]), ("y", [Value.num 2])] :=
  C10_dropna_preserves_caller_dataset [dsC10] 0 dsC10 none
    [("x", [Value.num 1]), ("y", [Value.num 2])] rfl rfl

end FoodStats
